import Mathlib

/-!
Verification development for the `https` request/response wrapper package.

The repository's `src/context.go` provides a `Context` with helpers for
binding form/query values into structures (`ReadForm` / `ReadQuery`), reading
and writing JSON/XML/HTML/plain-text bodies, header manipulation and file
uploads.  This file shallowly embeds the relevant data model and operations
and proves the behavioural properties claimed of them.

Modelling conventions:
* byte streams are `List Nat` (one entry per byte value), strings on the
  HTML path are `List Char` (Go's `html` package escaping is character based);
* the underlying response writer is modelled as infallible (its transport
  errors are outside the scope of the specified behaviour);
* functions of the Go standard library that the wrapper delegates to
  (`json.Unmarshal`, `xml.Unmarshal`, `json.Marshal`, multipart parsing)
  are taken as explicit parameters, since they are external collaborators.
-/

set_option autoImplicit false

namespace Https

/-! ## The request binder (RequestBinder of the spec)

`ReadForm`/`ReadQuery` in `src/context.go` delegate to a struct decoder
(`decoderForm.Decode` / `decoderQuery.Decode`) whose hand-rolled
implementation is part of the repository but not present under `src/`.
It is therefore modelled from the spec (§4.1). -/

/-- Declared kind of a target-structure field (spec §4.1 step 4).
Integer kinds carry the field's bit width.  `other` stands for every
unsupported kind (nested structure, sequence, map, custom type). -/
inductive FieldKind where
  | str
  | int (width : Nat)
  | uint (width : Nat)
  | float (width : Nat)
  | boolean
  | other
deriving DecidableEq

/-- Modelled from the spec: a field descriptor — binding tag plus declared
kind (spec §3).  The settability handle is the field's index in the target. -/
structure Field where
  tag : String
  kind : FieldKind
deriving DecidableEq

/-- Value held by a target-structure field.  Floating-point values are kept
as their raw literal, since no claim depends on float arithmetic. -/
inductive FieldValue where
  | vStr (s : String)
  | vInt (n : Int)
  | vUInt (n : Nat)
  | vFloat (lit : String)
  | vBool (b : Bool)
deriving DecidableEq

/-- Binding errors of the spec (§7).  `InvalidTarget` concerns nil/non-pointer
handles, which the shallow embedding rules out by construction. -/
inductive BindError where
  | conversionError (tag : String) (raw : String) (kind : FieldKind)
  | unsupportedFieldKind (tag : String)
deriving DecidableEq

/-- Value source: ordered mapping from key to list of string values
(multi-valued form/query semantics, spec §3). -/
abbrev Values := List (String × List String)

/-- Target structure: the current values of the fields, by field index. -/
abbrev Target := List FieldValue

/-- Base-10 digit-string parse (helper for the integer conversions). -/
def parseDigits (cs : List Char) : Option Nat :=
  match cs with
  | [] => none
  | _ =>
    if cs.all Char.isDigit then
      some (cs.foldl (fun acc c => acc * 10 + (c.toNat - 48)) 0)
    else none

/-- Modelled from the spec: parse as base-10 unsigned integer sized to the
field's bit width (spec §4.1 step 4); out-of-range values fail. -/
def parseUnsigned (w : Nat) (s : String) : Option Nat :=
  match parseDigits s.toList with
  | none => none
  | some n => if n < 2 ^ w then some n else none

/-- Modelled from the spec: parse as base-10 signed integer sized to the
field's bit width (spec §4.1 step 4); out-of-range values fail. -/
def parseSigned (w : Nat) (s : String) : Option Int :=
  match s.toList with
  | '+' :: rest =>
    match parseDigits rest with
    | none => none
    | some n => if (n : Int) < 2 ^ (w - 1) then some (n : Int) else none
  | '-' :: rest =>
    match parseDigits rest with
    | none => none
    | some n => if (n : Int) ≤ 2 ^ (w - 1) then some (-(n : Int)) else none
  | cs =>
    match parseDigits cs with
    | none => none
    | some n => if (n : Int) < 2 ^ (w - 1) then some (n : Int) else none

/-- Modelled from the spec: conventional boolean literal forms
("true"/"false"/"1"/"0"/"t"/"f" etc., spec §4.1 step 4). -/
def parseBoolLit (s : String) : Option Bool :=
  if s = "1" ∨ s = "t" ∨ s = "T" ∨ s = "TRUE" ∨ s = "true" ∨ s = "True" then
    some true
  else if s = "0" ∨ s = "f" ∨ s = "F" ∨ s = "FALSE" ∨ s = "false" ∨ s = "False" then
    some false
  else none

/-- Decimal floating-point literal body: digits, optionally with a dot. -/
def isFloatBody (cs : List Char) : Bool :=
  match cs.span Char.isDigit with
  | (intPart, rest) =>
    match rest with
    | [] => !intPart.isEmpty
    | '.' :: frac => (!intPart.isEmpty || !frac.isEmpty) && frac.all Char.isDigit
    | _ => false

/-- Modelled from the spec: parse as floating point (spec §4.1 step 4).
Success is modelled syntactically and the raw literal retained, since
floating-point values themselves are not modelled. -/
def parseFloatLit (s : String) : Option String :=
  match s.toList with
  | '+' :: rest => if isFloatBody rest then some s else none
  | '-' :: rest => if isFloatBody rest then some s else none
  | cs => if isFloatBody cs then some s else none

/-- Modelled from the spec: convert the first string value to the field's
declared kind (spec §4.1 step 4).  `other` is handled by the caller. -/
def convert (k : FieldKind) (raw : String) : Option FieldValue :=
  match k with
  | FieldKind.str => some (FieldValue.vStr raw)
  | FieldKind.int w => (parseSigned w raw).map FieldValue.vInt
  | FieldKind.uint w => (parseUnsigned w raw).map FieldValue.vUInt
  | FieldKind.float _ => (parseFloatLit raw).map FieldValue.vFloat
  | FieldKind.boolean => (parseBoolLit raw).map FieldValue.vBool
  | FieldKind.other => none

/-- First-match lookup of a key in the value source. -/
def lookupVals : Values → String → Option (List String)
  | [], _ => none
  | (k, v) :: rest, key => if k = key then some v else lookupVals rest key

/-- The first value stored under a key, if any. -/
def firstValue (vs : Values) (k : String) : Option String :=
  (lookupVals vs k).bind List.head?

/-- Modelled from the spec: the per-field step of the binder
(spec §4.1 steps 2–5).  Returns the field's new value or the error. -/
def bindField (f : Field) (vs : Values) (cur : FieldValue) :
    Except BindError FieldValue :=
  if f.tag = "" ∨ f.tag = "-" then Except.ok cur
  else
    match firstValue vs f.tag with
    | none => Except.ok cur
    | some raw =>
      if raw = "" then Except.ok cur
      else if f.kind = FieldKind.other then
        Except.error (BindError.unsupportedFieldKind f.tag)
      else
        match convert f.kind raw with
        | some v => Except.ok v
        | none => Except.error (BindError.conversionError f.tag raw f.kind)

/-- Fold of `bindField` over the field/value pairs in declaration order,
stopping at the first error.  Returns the target after the pass together
with the first error, if any (spec §4.1 steps 1 and 6): on an error the
failing field and every later field keep their current values, while
fields already assigned stay assigned. -/
def bindFields (vs : Values) : List (Field × FieldValue) → Target × Option BindError
  | [] => ([], none)
  | (f, cur) :: rest =>
    match bindField f vs cur with
    | Except.error e => (cur :: rest.map Prod.snd, some e)
    | Except.ok v =>
      let r := bindFields vs rest
      (v :: r.1, r.2)

/-- Modelled from the spec: `Bind(target, values, tagKey)` (spec §4.1).
The tag namespace selection is already baked into each field's `tag`. -/
def Decode (fields : List Field) (vs : Values) (target : Target) :
    Target × Option BindError :=
  bindFields vs (fields.zip target)

/-- ReadForm of `src/context.go`: an empty parsed form is a no-op success,
otherwise the form decoder runs (tag namespace "form"). -/
def ReadForm (fields : List Field) (target : Target) (form : Values) :
    Target × Option BindError :=
  if form.isEmpty then (target, none) else Decode fields form target

/-- ReadQuery of `src/context.go`: an empty query mapping is a no-op
success, otherwise the query decoder runs (tag namespace "url"). -/
def ReadQuery (fields : List Field) (target : Target) (query : Values) :
    Target × Option BindError :=
  if query.isEmpty then (target, none) else Decode fields query target

/-- A value source with every value list truncated to its first element. -/
def firstOnly (vs : Values) : Values :=
  vs.map (fun p => (p.1, p.2.take 1))

end Https

namespace Https

/-! ## Helper lemmas about the binder -/

theorem map_snd_zip_eq {α β : Type} :
    ∀ (xs : List α) (ys : List β), xs.length = ys.length →
      (xs.zip ys).map Prod.snd = ys := by
  intro xs
  induction xs with
  | nil =>
    intro ys h
    cases ys with
    | nil => rfl
    | cons y ys => simp at h
  | cons x xs ih =>
    intro ys h
    cases ys with
    | nil => simp at h
    | cons y ys => simp [ih ys (by simpa using h)]

/-- A field backed by the empty value source is always left as it is. -/
theorem bindField_nil_source (f : Field) (c : FieldValue) :
    bindField f [] c = Except.ok c := by
  by_cases h : f.tag = "" ∨ f.tag = "-" <;>
    simp [bindField, h, firstValue, lookupVals]

/-- Unfolding equation for `Decode` on a cons cell. -/
theorem decode_cons (gf : Field) (fs : List Field) (d : FieldValue)
    (ts : Target) (vs : Values) :
    Decode (gf :: fs) vs (d :: ts) =
      match bindField gf vs d with
      | Except.error e => (d :: (fs.zip ts).map Prod.snd, some e)
      | Except.ok v => (v :: (Decode fs vs ts).1, (Decode fs vs ts).2) := rfl

theorem firstValue_ne_nil (vs : Values) (k : String) (raw : String)
    (h : firstValue vs k = some raw) : vs ≠ [] := by
  intro hv
  subst hv
  simp [firstValue, lookupVals] at h

/-- On a non-empty source, ReadForm and ReadQuery both run the decoder. -/
theorem readForm_eq_decode (fields : List Field) (target : Target)
    (vs : Values) (h : vs ≠ []) :
    ReadForm fields target vs = Decode fields vs target ∧
    ReadQuery fields target vs = Decode fields vs target := by
  cases vs with
  | nil => exact absurd rfl h
  | cons p rest => constructor <;> rfl

/-- If the first failing field is at index `i`, the decoder returns that
field's error, keeps every field from `i` on at its input value, and keeps
every earlier field at its (successfully) bound value. -/
theorem decode_first_error_spec :
    ∀ (fields : List Field) (target : Target) (vs : Values) (i : Nat)
      (f : Field) (c : FieldValue) (e : BindError),
      fields.length = target.length →
      fields[i]? = some f → target[i]? = some c →
      (∀ (j : Nat) (g : Field) (d : FieldValue), j < i → fields[j]? = some g → target[j]? = some d →
        ∃ v, bindField g vs d = Except.ok v) →
      bindField f vs c = Except.error e →
      (Decode fields vs target).2 = some e ∧
      (∀ (j : Nat), i ≤ j → (Decode fields vs target).1[j]? = target[j]?) ∧
      (∀ (j : Nat) (g : Field) (d : FieldValue), j < i → fields[j]? = some g → target[j]? = some d →
        ∃ v, bindField g vs d = Except.ok v ∧
          (Decode fields vs target).1[j]? = some v) := by
  intro fields
  induction fields with
  | nil =>
    intro target vs i f c e hlen hf hc hok herr
    simp at hf
  | cons g fs ih =>
    intro target vs i f c e hlen hf hc hok herr
    cases target with
    | nil => simp at hlen
    | cons d ts =>
      have hlen' : fs.length = ts.length := by simpa using hlen
      cases i with
      | zero =>
        have hg : g = f := by simpa using hf
        have hd : d = c := by simpa using hc
        subst hg
        subst hd
        have hbind : Decode (g :: fs) vs (d :: ts)
            = (d :: (fs.zip ts).map Prod.snd, some e) := by
          simp only [decode_cons, herr]
        refine ⟨by rw [hbind], ?_, ?_⟩
        · intro j hj
          rw [hbind]
          rw [map_snd_zip_eq fs ts hlen']
        · intro j gj dj hj
          exact absurd hj (Nat.not_lt_zero j)
      | succ n =>
        obtain ⟨v, hv⟩ := hok 0 g d (Nat.succ_pos n) (by simp) (by simp)
        have hf' : fs[n]? = some f := by simpa using hf
        have hc' : ts[n]? = some c := by simpa using hc
        have hok' : ∀ (j : Nat) (gj : Field) (dj : FieldValue),
            j < n → fs[j]? = some gj → ts[j]? = some dj →
            ∃ w, bindField gj vs dj = Except.ok w := by
          intro j gj dj hj hgj hdj
          exact hok (j + 1) gj dj (Nat.succ_lt_succ hj)
            (by simpa using hgj) (by simpa using hdj)
        obtain ⟨h1, h2, h3⟩ := ih ts vs n f c e hlen' hf' hc' hok' herr
        have hbind : Decode (g :: fs) vs (d :: ts)
            = (v :: (Decode fs vs ts).1, (Decode fs vs ts).2) := by
          simp only [decode_cons, hv]
        refine ⟨?_, ?_, ?_⟩
        · rw [hbind]
          exact h1
        · intro j hj
          cases j with
          | zero => exact absurd hj (by omega)
          | succ m =>
            rw [hbind]
            simpa using h2 m (Nat.le_of_succ_le_succ hj)
        · intro j gj dj hj hgj hdj
          cases j with
          | zero =>
            have hgg : gj = g := by simpa using hgj.symm
            have hdd : dj = d := by simpa using hdj.symm
            subst hgg
            subst hdd
            exact ⟨v, hv, by rw [hbind]; simp⟩
          | succ m =>
            obtain ⟨w, hw1, hw2⟩ := h3 m gj dj (Nat.lt_of_succ_lt_succ hj)
              (by simpa using hgj) (by simpa using hdj)
            exact ⟨w, hw1, by rw [hbind]; simpa using hw2⟩

/-- If every field binds without error, the decoder succeeds and every
field ends at its bound value. -/
theorem decode_all_ok_spec :
    ∀ (fields : List Field) (target : Target) (vs : Values),
      fields.length = target.length →
      (∀ (j : Nat) (g : Field) (d : FieldValue), fields[j]? = some g → target[j]? = some d →
        ∃ v, bindField g vs d = Except.ok v) →
      (Decode fields vs target).2 = none ∧
      (∀ (j : Nat) (g : Field) (d : FieldValue), fields[j]? = some g → target[j]? = some d →
        ∃ v, bindField g vs d = Except.ok v ∧
          (Decode fields vs target).1[j]? = some v) := by
  intro fields
  induction fields with
  | nil =>
    intro target vs hlen hok
    refine ⟨rfl, ?_⟩
    intro j g d hg hd
    simp at hg
  | cons gf fs ih =>
    intro target vs hlen hok
    cases target with
    | nil => simp at hlen
    | cons d ts =>
      have hlen' : fs.length = ts.length := by simpa using hlen
      obtain ⟨v, hv⟩ := hok 0 gf d (by simp) (by simp)
      have hok' : ∀ (j : Nat) (g : Field) (d' : FieldValue),
          fs[j]? = some g → ts[j]? = some d' →
          ∃ w, bindField g vs d' = Except.ok w := by
        intro j g d' hg hd'
        exact hok (j + 1) g d' (by simpa using hg) (by simpa using hd')
      obtain ⟨h1, h2⟩ := ih ts vs hlen' hok'
      have hbind : Decode (gf :: fs) vs (d :: ts)
          = (v :: (Decode fs vs ts).1, (Decode fs vs ts).2) := by
        simp only [decode_cons, hv]
      refine ⟨by rw [hbind]; exact h1, ?_⟩
      intro j g d' hg hd'
      cases j with
      | zero =>
        have hgg : g = gf := by simpa using hg.symm
        have hdd : d' = d := by simpa using hd'.symm
        subst hgg
        subst hdd
        exact ⟨v, hv, by rw [hbind]; simp⟩
      | succ m =>
        obtain ⟨w, hw1, hw2⟩ := h2 m g d' (by simpa using hg)
          (by simpa using hd')
        exact ⟨w, hw1, by rw [hbind]; simpa using hw2⟩

/-- `bindField` on a matched, non-empty, non-skip value whose conversion
fails returns the conversion error. -/
theorem bindField_conv_fail (f : Field) (vs : Values) (c : FieldValue)
    (raw : String) (htag : f.tag ≠ "" ∧ f.tag ≠ "-")
    (hfv : firstValue vs f.tag = some raw) (hraw : raw ≠ "")
    (hk : f.kind ≠ FieldKind.other) (hconv : convert f.kind raw = none) :
    bindField f vs c
      = Except.error (BindError.conversionError f.tag raw f.kind) := by
  simp [bindField, htag.1, htag.2, hfv, hraw, hk, hconv]

/-- `bindField` on a matched, non-empty, non-skip value of an unsupported
kind returns `UnsupportedFieldKind`. -/
theorem bindField_unsupported (f : Field) (vs : Values) (c : FieldValue)
    (raw : String) (htag : f.tag ≠ "" ∧ f.tag ≠ "-")
    (hfv : firstValue vs f.tag = some raw) (hraw : raw ≠ "")
    (hk : f.kind = FieldKind.other) :
    bindField f vs c = Except.error (BindError.unsupportedFieldKind f.tag) := by
  simp [bindField, htag.1, htag.2, hfv, hraw, hk]

/-- A field whose matched first value is the empty string is skipped. -/
theorem bindField_empty_raw (f : Field) (vs : Values) (c : FieldValue)
    (hfv : firstValue vs f.tag = some "") : bindField f vs c = Except.ok c := by
  by_cases htag : f.tag = "" ∨ f.tag = "-" <;> simp [bindField, htag, hfv]

/-- `bindField` reads the value source only through `firstValue`. -/
theorem bindField_congr (f : Field) (vs vs' : Values) (c : FieldValue)
    (h : firstValue vs f.tag = firstValue vs' f.tag) :
    bindField f vs c = bindField f vs' c := by
  unfold bindField
  rw [h]

theorem lookupVals_firstOnly (vs : Values) (k : String) :
    lookupVals (firstOnly vs) k = (lookupVals vs k).map (List.take 1) := by
  induction vs with
  | nil => rfl
  | cons p rest ih =>
    by_cases h : p.1 = k
    · simp [firstOnly, lookupVals, h]
    · simp only [firstOnly, lookupVals, List.map_cons, if_neg h]
      simpa [firstOnly] using ih

theorem head_take_one {α : Type} (l : List α) : (l.take 1).head? = l.head? := by
  cases l <;> rfl

theorem firstValue_firstOnly (vs : Values) (k : String) :
    firstValue (firstOnly vs) k = firstValue vs k := by
  rw [firstValue, firstValue, lookupVals_firstOnly]
  cases lookupVals vs k with
  | none => rfl
  | some l => simpa using head_take_one l

/-- `bindFields` only depends on the first value stored under each key. -/
theorem bindFields_congr (vs vs' : Values)
    (h : ∀ k, firstValue vs k = firstValue vs' k) :
    ∀ ps : List (Field × FieldValue), bindFields vs ps = bindFields vs' ps := by
  intro ps
  induction ps with
  | nil => rfl
  | cons p rest ih =>
    obtain ⟨f, c⟩ := p
    simp only [bindFields, bindField_congr f vs vs' c (h f.tag), ih]

/-! ## Request bodies: GetBody, UnmarshalBody, ReadJSON/ReadXML/ReadHTML

These embed `src/context.go` directly.  A body stream is modelled by its
byte content plus the error, if any, that reading it to the end reports
(`ioutil.ReadAll` returns the data read so far together with that error).
-/

/-- Errors of the wrapper (src/context.go `errEmptyBody`, `errCreateFile`)
together with the transport/deserializer errors it propagates unchanged. -/
inductive HError where
  | emptyBody
  | createFileFailed
  | ioError (msg : String)
  | decodeError (msg : String)
  | encodeError (msg : String)
deriving DecidableEq

/-- A body stream: its full content and the read error, if any, that
`ioutil.ReadAll` reports after delivering that content. -/
structure BodyStream (β : Type) where
  content : List β
  readErr : Option String

/-- An incoming request; `body = none` models a nil `Request.Body`. -/
structure Request (β : Type) where
  body : Option (BodyStream β)

/-- GetBody of `src/context.go`: a nil body yields `errEmptyBody`,
otherwise the body is read to the end and the result of `ReadAll`
returned as-is. -/
def GetBody {β : Type} (r : Request β) : List β × Option HError :=
  match r.body with
  | none => ([], some HError.emptyBody)
  | some s =>
    match s.readErr with
    | none => (s.content, none)
    | some msg => (s.content, some (HError.ioError msg))

/-- Shape of `UnmarshalerFunc` of `src/context.go`; the target value is
threaded explicitly since Go mutates it through a pointer. -/
def UnmarshalerFunc (V : Type) : Type :=
  List Nat → V → V × Option HError

/-- UnmarshalBody of `src/context.go`: read the body; only on success is
the unmarshaler invoked on the data and the target. -/
def UnmarshalBody {V : Type} (r : Request Nat) (v : V)
    (unmarshaler : UnmarshalerFunc V) : V × Option HError :=
  match GetBody r with
  | (data, none) => unmarshaler data v
  | (_, some e) => (v, some e)

/-- ReadJSON of `src/context.go`; `json.Unmarshal` is a standard-library
collaborator, so it is taken as a parameter. -/
def ReadJSON {V : Type} (jsonUnmarshal : UnmarshalerFunc V)
    (r : Request Nat) (v : V) : V × Option HError :=
  UnmarshalBody r v jsonUnmarshal

/-- ReadXML of `src/context.go`; `xml.Unmarshal` is a standard-library
collaborator, so it is taken as a parameter. -/
def ReadXML {V : Type} (xmlUnmarshal : UnmarshalerFunc V)
    (r : Request Nat) (v : V) : V × Option HError :=
  UnmarshalBody r v xmlUnmarshal


/-! ## Response writing: headers, JSON and HTML output

The response writer is modelled as its header map plus the byte (or
character) stream written so far. -/

/-- The underlying `http.ResponseWriter`: headers plus the body written
so far.  `β` is `Nat` for byte output and `Char` for the HTML path. -/
structure ResponseWriter (β : Type) where
  headers : List (String × String)
  body : List β

def headerTypeContentType : String := "Content-Type"

def headerTypeContentJSON : String := "application/json;charset=utf-8"

def headerTypeContentXML : String := "text/xml;charset=utf-8"

def headerTypeContentHTML : String := "text/html;charset=utf-8"

def headerTypeContentText : String := "text/plain;charset=utf-8"

/-- SetHeader of `src/context.go` (`http.Header.Set`): replace every value
stored under the name. -/
def SetHeader {β : Type} (w : ResponseWriter β) (name value : String) :
    ResponseWriter β :=
  { w with headers := (name, value) :: w.headers.filter (fun p => p.1 != name) }

/-- Read a header back from the response (first match). -/
def getHeader {β : Type} (w : ResponseWriter β) (name : String) :
    Option String :=
  (w.headers.find? (fun p => p.1 == name)).map Prod.snd

/-- Models `encoding/json.HTMLEscape` of the Go standard library: the
bytes of `<` (60), `>` (62) and `&` (38) become `\u003c`, `\u003e`,
`\u0026`, and the UTF-8 sequences of U+2028/U+2029 (226 128 168/169)
become `\u2028`/`\u2029`; all other bytes pass through. -/
def jsonHTMLEscape : List Nat → List Nat
  | [] => []
  | b :: rest =>
    if b = 60 then [92, 117, 48, 48, 51, 99] ++ jsonHTMLEscape rest
    else if b = 62 then [92, 117, 48, 48, 51, 101] ++ jsonHTMLEscape rest
    else if b = 38 then [92, 117, 48, 48, 50, 54] ++ jsonHTMLEscape rest
    else if b = 226 ∧ rest.take 2 = [128, 168] then
      [92, 117, 50, 48, 50, 56] ++ jsonHTMLEscape (rest.drop 2)
    else if b = 226 ∧ rest.take 2 = [128, 169] then
      [92, 117, 50, 48, 50, 57] ++ jsonHTMLEscape (rest.drop 2)
    else b :: jsonHTMLEscape rest
termination_by l => l.length
decreasing_by all_goals simp <;> omega

/-- WriteDataJSON of `src/context.go`: HTML-escape the payload into a
buffer, set the JSON content type, then write the buffer out. -/
def WriteDataJSON (w : ResponseWriter Nat) (data : List Nat) :
    ResponseWriter Nat :=
  let buf := jsonHTMLEscape data
  let w2 := SetHeader w headerTypeContentType headerTypeContentJSON
  { w2 with body := w2.body ++ buf }

/-- Shape of a marshaler (`json.Marshal`), an external collaborator. -/
def MarshalerFunc (V : Type) : Type := V → Except String (List Nat)

/-- WriteJSON of `src/context.go`: marshal, and only on success hand the
bytes to `WriteDataJSON`. -/
def WriteJSON {V : Type} (marshal : MarshalerFunc V)
    (w : ResponseWriter Nat) (v : V) : ResponseWriter Nat × Option HError :=
  match marshal v with
  | Except.ok data => (WriteDataJSON w data, none)
  | Except.error msg => (w, some (HError.encodeError msg))

/-- Models `html.EscapeString` of the Go standard library, character by
character: `&`, `'`, `<`, `>`, `"` become `&amp;`, `&#39;`, `&lt;`,
`&gt;`, `&#34;`. -/
def escChar (c : Char) : List Char :=
  if c = '&' then ['&', 'a', 'm', 'p', ';']
  else if c = Char.ofNat 39 then ['&', '#', '3', '9', ';']
  else if c = '<' then ['&', 'l', 't', ';']
  else if c = '>' then ['&', 'g', 't', ';']
  else if c = Char.ofNat 34 then ['&', '#', '3', '4', ';']
  else [c]

def escapeString : List Char → List Char
  | [] => []
  | c :: rest => escChar c ++ escapeString rest

/-- Models `html.UnescapeString` of the Go standard library, restricted
to the entities `escapeString` emits (the full entity table is irrelevant
to the write/read round trip). -/
def unescapeString : List Char → List Char
  | [] => []
  | c :: rest =>
    if c = '&' then
      if rest.take 4 = ['a', 'm', 'p', ';'] then
        '&' :: unescapeString (rest.drop 4)
      else if rest.take 3 = ['l', 't', ';'] then
        '<' :: unescapeString (rest.drop 3)
      else if rest.take 3 = ['g', 't', ';'] then
        '>' :: unescapeString (rest.drop 3)
      else if rest.take 4 = ['#', '3', '4', ';'] then
        Char.ofNat 34 :: unescapeString (rest.drop 4)
      else if rest.take 4 = ['#', '3', '9', ';'] then
        Char.ofNat 39 :: unescapeString (rest.drop 4)
      else c :: unescapeString rest
    else c :: unescapeString rest
termination_by l => l.length
decreasing_by all_goals simp <;> omega

/-- WriteString of `src/context.go`: HTML-escape the input and write it. -/
def WriteString (w : ResponseWriter Char) (s : List Char) :
    ResponseWriter Char :=
  { w with body := w.body ++ escapeString s }

/-- WriteHTML of `src/context.go`: set the HTML content type, then
delegate to `WriteString` (which escapes). -/
def WriteHTML (w : ResponseWriter Char) (s : List Char) :
    ResponseWriter Char :=
  WriteString (SetHeader w headerTypeContentType headerTypeContentHTML) s

/-- ReadHTML of `src/context.go`: read the body; on success HTML-unescape
it, otherwise return the empty string with the error. -/
def ReadHTML (r : Request Char) : List Char × Option HError :=
  match GetBody r with
  | (data, none) => (unescapeString data, none)
  | (_, some e) => ([], some e)

/-! ## File upload -/

/-- Outcome of one `UploadFile` run: the returned error plus whether the
source stream was closed and whether the sink was opened and closed. -/
structure UploadOutcome where
  err : Option HError
  srcClosed : Bool
  sinkOpened : Bool
  sinkClosed : Bool
deriving DecidableEq

/-- UploadFile of `src/context.go`.  `formFile` is the outcome of the
multipart-parsing collaborator `FormFile` (error, or the upload's original
filename with its stream); `createFile` says whether the caller's callback
yields a non-nil sink for a filename; `copyErr` is the outcome of
`io.Copy`.  The two `defer Close()` calls of the source become the
explicit closed-flags of the outcome. -/
def UploadFile (formFile : Except HError String)
    (createFile : String → Bool) (copyErr : Option HError) : UploadOutcome :=
  match formFile with
  | Except.error e =>
    { err := some e, srcClosed := false, sinkOpened := false, sinkClosed := false }
  | Except.ok filename =>
    if createFile filename then
      { err := copyErr, srcClosed := true, sinkOpened := true, sinkClosed := true }
    else
      { err := some HError.createFileFailed, srcClosed := true,
        sinkOpened := false, sinkClosed := false }


/-! ## Helper lemmas about the escape functions -/

theorem jsonHTMLEscape_cons_other (x : Nat) (rest : List Nat)
    (h60 : x ≠ 60) (h62 : x ≠ 62) (h38 : x ≠ 38)
    (hA : ¬(x = 226 ∧ rest.take 2 = [128, 168]))
    (hB : ¬(x = 226 ∧ rest.take 2 = [128, 169])) :
    jsonHTMLEscape (x :: rest) = x :: jsonHTMLEscape rest := by
  simp [jsonHTMLEscape, h60, h62, h38, hA, hB]

theorem jsonHTMLEscape_cons_A (x : Nat) (rest : List Nat)
    (_h60 : x ≠ 60) (_h62 : x ≠ 62) (_h38 : x ≠ 38)
    (hA : x = 226 ∧ rest.take 2 = [128, 168]) :
    jsonHTMLEscape (x :: rest)
      = [92, 117, 50, 48, 50, 56] ++ jsonHTMLEscape (rest.drop 2) := by
  simp [jsonHTMLEscape, hA.1, hA.2]

theorem jsonHTMLEscape_cons_B (x : Nat) (rest : List Nat)
    (_h60 : x ≠ 60) (_h62 : x ≠ 62) (_h38 : x ≠ 38)
    (hB : x = 226 ∧ rest.take 2 = [128, 169]) :
    jsonHTMLEscape (x :: rest)
      = [92, 117, 50, 48, 50, 57] ++ jsonHTMLEscape (rest.drop 2) := by
  simp [jsonHTMLEscape, hB.1, hB.2]

/-- Every byte output by `jsonHTMLEscape` differs from the raw HTML-unsafe
bytes `<` (60), `>` (62) and `&` (38). -/
theorem mem_jsonHTMLEscape_safe :
    ∀ (n : Nat) (l : List Nat), l.length ≤ n →
      ∀ b ∈ jsonHTMLEscape l, b ≠ 60 ∧ b ≠ 62 ∧ b ≠ 38 := by
  intro n
  induction n with
  | zero =>
    intro l hl b hb
    have hnil : l = [] := List.length_eq_zero.mp (Nat.le_zero.mp hl)
    subst hnil
    simp [jsonHTMLEscape] at hb
  | succ n ih =>
    intro l hl b hb
    cases l with
    | nil => simp [jsonHTMLEscape] at hb
    | cons x rest =>
      have hrest : rest.length ≤ n := by
        have := hl
        simp only [List.length_cons] at this
        omega
      have hdrop : (rest.drop 2).length ≤ n := by
        have := List.length_drop 2 rest
        omega
      have hesc : ∀ m ∈ [92, 117, 48, 50, 51, 54, 56, 57, 99, 101],
          m ≠ 60 ∧ m ≠ 62 ∧ m ≠ 38 := by decide
      by_cases h60 : x = 60
      · subst h60
        rw [show jsonHTMLEscape (60 :: rest)
            = [92, 117, 48, 48, 51, 99] ++ jsonHTMLEscape rest by
          simp [jsonHTMLEscape]] at hb
        rcases List.mem_append.mp hb with h | h
        · exact (by decide : ∀ m ∈ [92, 117, 48, 48, 51, 99],
            m ≠ 60 ∧ m ≠ 62 ∧ m ≠ 38) b h
        · exact ih rest hrest b h
      by_cases h62 : x = 62
      · subst h62
        rw [show jsonHTMLEscape (62 :: rest)
            = [92, 117, 48, 48, 51, 101] ++ jsonHTMLEscape rest by
          simp [jsonHTMLEscape]] at hb
        rcases List.mem_append.mp hb with h | h
        · exact (by decide : ∀ m ∈ [92, 117, 48, 48, 51, 101],
            m ≠ 60 ∧ m ≠ 62 ∧ m ≠ 38) b h
        · exact ih rest hrest b h
      by_cases h38 : x = 38
      · subst h38
        rw [show jsonHTMLEscape (38 :: rest)
            = [92, 117, 48, 48, 50, 54] ++ jsonHTMLEscape rest by
          simp [jsonHTMLEscape]] at hb
        rcases List.mem_append.mp hb with h | h
        · exact (by decide : ∀ m ∈ [92, 117, 48, 48, 50, 54],
            m ≠ 60 ∧ m ≠ 62 ∧ m ≠ 38) b h
        · exact ih rest hrest b h
      by_cases hA : x = 226 ∧ rest.take 2 = [128, 168]
      · rw [jsonHTMLEscape_cons_A x rest h60 h62 h38 hA] at hb
        rcases List.mem_append.mp hb with h | h
        · exact (by decide : ∀ m ∈ [92, 117, 50, 48, 50, 56],
            m ≠ 60 ∧ m ≠ 62 ∧ m ≠ 38) b h
        · exact ih (rest.drop 2) hdrop b h
      by_cases hB : x = 226 ∧ rest.take 2 = [128, 169]
      · rw [jsonHTMLEscape_cons_B x rest h60 h62 h38 hB] at hb
        rcases List.mem_append.mp hb with h | h
        · exact (by decide : ∀ m ∈ [92, 117, 50, 48, 50, 57],
            m ≠ 60 ∧ m ≠ 62 ∧ m ≠ 38) b h
        · exact ih (rest.drop 2) hdrop b h
      rw [jsonHTMLEscape_cons_other x rest h60 h62 h38 hA hB] at hb
      rcases List.mem_cons.mp hb with h | h
      · subst h
        exact ⟨h60, h62, h38⟩
      · exact ih rest hrest b h

theorem unescape_cons_ne (c : Char) (t : List Char) (hc : c ≠ '&') :
    unescapeString (c :: t) = c :: unescapeString t := by
  simp [unescapeString, hc]

theorem unescape_amp (t : List Char) :
    unescapeString ('&' :: 'a' :: 'm' :: 'p' :: ';' :: t)
      = '&' :: unescapeString t := by
  simp [unescapeString]

theorem unescape_lt (t : List Char) :
    unescapeString ('&' :: 'l' :: 't' :: ';' :: t)
      = '<' :: unescapeString t := by
  simp [unescapeString]

theorem unescape_gt (t : List Char) :
    unescapeString ('&' :: 'g' :: 't' :: ';' :: t)
      = '>' :: unescapeString t := by
  simp [unescapeString]

theorem unescape_quot (t : List Char) :
    unescapeString ('&' :: '#' :: '3' :: '4' :: ';' :: t)
      = Char.ofNat 34 :: unescapeString t := by
  simp [unescapeString]

theorem unescape_apos (t : List Char) :
    unescapeString ('&' :: '#' :: '3' :: '9' :: ';' :: t)
      = Char.ofNat 39 :: unescapeString t := by
  simp [unescapeString]

/-- Escaping then unescaping is the identity on every string. -/
theorem unescape_escape (s : List Char) :
    unescapeString (escapeString s) = s := by
  induction s with
  | nil => simp [escapeString, unescapeString]
  | cons c rest ih =>
    by_cases h1 : c = '&'
    · subst h1
      calc unescapeString (escapeString ('&' :: rest))
          = unescapeString ('&' :: 'a' :: 'm' :: 'p' :: ';'
              :: escapeString rest) := by simp [escapeString, escChar]
        _ = '&' :: unescapeString (escapeString rest) := unescape_amp _
        _ = '&' :: rest := by rw [ih]
    by_cases h2 : c = Char.ofNat 39
    · subst h2
      calc unescapeString (escapeString (Char.ofNat 39 :: rest))
          = unescapeString ('&' :: '#' :: '3' :: '9' :: ';'
              :: escapeString rest) := by simp [escapeString, escChar, h1]
        _ = Char.ofNat 39 :: unescapeString (escapeString rest) :=
            unescape_apos _
        _ = Char.ofNat 39 :: rest := by rw [ih]
    by_cases h3 : c = '<'
    · subst h3
      calc unescapeString (escapeString ('<' :: rest))
          = unescapeString ('&' :: 'l' :: 't' :: ';'
              :: escapeString rest) := by simp [escapeString, escChar, h1, h2]
        _ = '<' :: unescapeString (escapeString rest) := unescape_lt _
        _ = '<' :: rest := by rw [ih]
    by_cases h4 : c = '>'
    · subst h4
      calc unescapeString (escapeString ('>' :: rest))
          = unescapeString ('&' :: 'g' :: 't' :: ';'
              :: escapeString rest) := by
            simp [escapeString, escChar, h1, h2, h3]
        _ = '>' :: unescapeString (escapeString rest) := unescape_gt _
        _ = '>' :: rest := by rw [ih]
    by_cases h5 : c = Char.ofNat 34
    · subst h5
      calc unescapeString (escapeString (Char.ofNat 34 :: rest))
          = unescapeString ('&' :: '#' :: '3' :: '4' :: ';'
              :: escapeString rest) := by
            simp [escapeString, escChar, h1, h2, h3, h4]
        _ = Char.ofNat 34 :: unescapeString (escapeString rest) :=
            unescape_quot _
        _ = Char.ofNat 34 :: rest := by rw [ih]
    have he : escChar c = [c] := by simp [escChar, h1, h2, h3, h4, h5]
    calc unescapeString (escapeString (c :: rest))
        = unescapeString (c :: escapeString rest) := by
          simp [escapeString, he]
      _ = c :: unescapeString (escapeString rest) := unescape_cons_ne c _ h1
      _ = c :: rest := by rw [ih]

/-! ## C5: empty source is a no-op success -/

/-- C5: for every target structure, binding against an empty value source
(ReadForm with an empty parsed form, ReadQuery with an empty query mapping)
returns success and leaves the target completely unmodified. -/
theorem readForm_empty_source_noop (fields : List Field) (target : Target) :
    ReadForm fields target [] = (target, none) ∧
    ReadQuery fields target [] = (target, none) := by
  constructor <;> rfl

/-! ## C1: a conversion failure aborts with the first error, no rollback -/

/-- C1: if the first failing field is the one at index `i` (every earlier
field binds without error) and its failure is a conversion failure of the
first string value, then ReadForm/ReadQuery return exactly that error,
every field from `i` on keeps its input value (the pass aborts
immediately), and every field before `i` keeps its freshly bound value
(no rollback). -/
theorem readForm_conversion_error_aborts
    (fields : List Field) (target : Target) (vs : Values)
    (i : Nat) (f : Field) (c : FieldValue) (raw : String)
    (hlen : fields.length = target.length)
    (hf : fields[i]? = some f) (hc : target[i]? = some c)
    (htag : f.tag ≠ "" ∧ f.tag ≠ "-")
    (hfv : firstValue vs f.tag = some raw) (hraw : raw ≠ "")
    (hk : f.kind ≠ FieldKind.other)
    (hconv : convert f.kind raw = none)
    (hok : ∀ (j : Nat) (g : Field) (d : FieldValue), j < i →
      fields[j]? = some g → target[j]? = some d →
      ∃ v, bindField g vs d = Except.ok v) :
    ((ReadForm fields target vs).2
        = some (BindError.conversionError f.tag raw f.kind) ∧
      (ReadQuery fields target vs).2
        = some (BindError.conversionError f.tag raw f.kind)) ∧
    (∀ (j : Nat), i ≤ j → (ReadForm fields target vs).1[j]? = target[j]?) ∧
    (∀ (j : Nat) (g : Field) (d : FieldValue), j < i →
      fields[j]? = some g → target[j]? = some d →
      ∃ v, bindField g vs d = Except.ok v ∧
        (ReadForm fields target vs).1[j]? = some v) := by
  have hne := firstValue_ne_nil vs f.tag raw hfv
  obtain ⟨hrf, hrq⟩ := readForm_eq_decode fields target vs hne
  have herr := bindField_conv_fail f vs c raw htag hfv hraw hk hconv
  obtain ⟨h1, h2, h3⟩ :=
    decode_first_error_spec fields target vs i f c _ hlen hf hc hok herr
  rw [hrf, hrq]
  exact ⟨⟨h1, h1⟩, h2, h3⟩

/-- Witness for C1: a one-field target whose integer field receives the
unparsable string "x". -/
theorem readForm_conversion_error_aborts_witness :
    (ReadForm [Field.mk "a" (FieldKind.int 64)] [FieldValue.vInt 0]
        [("a", ["x"])]).2
      = some (BindError.conversionError "a" "x" (FieldKind.int 64)) :=
  ((readForm_conversion_error_aborts
      [Field.mk "a" (FieldKind.int 64)] [FieldValue.vInt 0] [("a", ["x"])]
      0 (Field.mk "a" (FieldKind.int 64)) (FieldValue.vInt 0) "x"
      rfl rfl rfl ⟨by decide, by decide⟩ (by decide) (by decide) (by decide)
      (by decide)
      (fun j _ _ hj _ _ => absurd hj (Nat.not_lt_zero j))).1).1

/-! ## C2: only the first value under a key is ever observed -/

/-- C2: binding over a value source gives exactly the same result as
binding over the source with every value list truncated to its first
element, for the decoder and for ReadForm/ReadQuery: later values under a
key are never observed in the target. -/
theorem readForm_uses_first_value_only
    (fields : List Field) (target : Target) (vs : Values) :
    Decode fields vs target = Decode fields (firstOnly vs) target ∧
    ReadForm fields target vs = ReadForm fields target (firstOnly vs) ∧
    ReadQuery fields target vs = ReadQuery fields target (firstOnly vs) := by
  have hd : ∀ ws : Values,
      Decode fields ws target = Decode fields (firstOnly ws) target := by
    intro ws
    exact bindFields_congr ws (firstOnly ws)
      (fun k => (firstValue_firstOnly ws k).symm) (fields.zip target)
  refine ⟨hd vs, ?_, ?_⟩ <;>
    cases vs with
    | nil => rfl
    | cons p rest => exact hd (p :: rest)

/-! ## C3: unsupported field kinds fail with UnsupportedFieldKind -/

/-- C3: a field of a kind outside {string, signed integer, unsigned
integer, float, bool} whose tag matches a key with a non-empty first
value makes binding fail with `UnsupportedFieldKind` for that field, once
processing reaches it (all earlier fields bind without error). -/
theorem readForm_unsupported_kind_error
    (fields : List Field) (target : Target) (vs : Values)
    (i : Nat) (f : Field) (c : FieldValue) (raw : String)
    (hlen : fields.length = target.length)
    (hf : fields[i]? = some f) (hc : target[i]? = some c)
    (htag : f.tag ≠ "" ∧ f.tag ≠ "-")
    (hfv : firstValue vs f.tag = some raw) (hraw : raw ≠ "")
    (hk : f.kind = FieldKind.other)
    (hok : ∀ (j : Nat) (g : Field) (d : FieldValue), j < i →
      fields[j]? = some g → target[j]? = some d →
      ∃ v, bindField g vs d = Except.ok v) :
    (ReadForm fields target vs).2
        = some (BindError.unsupportedFieldKind f.tag) ∧
    (ReadQuery fields target vs).2
        = some (BindError.unsupportedFieldKind f.tag) := by
  have hne := firstValue_ne_nil vs f.tag raw hfv
  obtain ⟨hrf, hrq⟩ := readForm_eq_decode fields target vs hne
  have herr := bindField_unsupported f vs c raw htag hfv hraw hk
  obtain ⟨h1, _, _⟩ :=
    decode_first_error_spec fields target vs i f c _ hlen hf hc hok herr
  rw [hrf, hrq]
  exact ⟨h1, h1⟩

/-- Witness for C3: a one-field target whose field has an unsupported
kind and whose tag matches the key "a". -/
theorem readForm_unsupported_kind_error_witness :
    (ReadForm [Field.mk "a" FieldKind.other] [FieldValue.vStr ""]
        [("a", ["z"])]).2
      = some (BindError.unsupportedFieldKind "a") :=
  (readForm_unsupported_kind_error
      [Field.mk "a" FieldKind.other] [FieldValue.vStr ""] [("a", ["z"])]
      0 (Field.mk "a" FieldKind.other) (FieldValue.vStr "") "z"
      rfl rfl rfl ⟨by decide, by decide⟩ (by decide) (by decide) (by decide)
      (fun j _ _ hj _ _ => absurd hj (Nat.not_lt_zero j))).1

/-! ## C4: an empty first value is treated as absent -/

/-- C4: a string field whose tag matches a key whose first value is the
empty string is skipped: when every field of the pass binds without error,
binding succeeds and the field keeps its prior value. -/
theorem readForm_empty_first_value_skips
    (fields : List Field) (target : Target) (vs : Values)
    (i : Nat) (f : Field) (c : FieldValue)
    (hlen : fields.length = target.length)
    (hf : fields[i]? = some f) (hc : target[i]? = some c)
    (_hkind : f.kind = FieldKind.str)
    (hfv : firstValue vs f.tag = some "")
    (hok : ∀ (j : Nat) (g : Field) (d : FieldValue),
      fields[j]? = some g → target[j]? = some d →
      ∃ v, bindField g vs d = Except.ok v) :
    ((ReadForm fields target vs).2 = none ∧
      (ReadQuery fields target vs).2 = none) ∧
    (ReadForm fields target vs).1[i]? = target[i]? := by
  have hne := firstValue_ne_nil vs f.tag "" hfv
  obtain ⟨hrf, hrq⟩ := readForm_eq_decode fields target vs hne
  obtain ⟨h1, h2⟩ := decode_all_ok_spec fields target vs hlen hok
  obtain ⟨v, hv1, hv2⟩ := h2 i f c hf hc
  have hb := bindField_empty_raw f vs c hfv
  have hvc : v = c := by
    have := hv1.symm.trans hb
    injection this
  rw [hrf, hrq]
  refine ⟨⟨h1, h1⟩, ?_⟩
  rw [hv2, hvc, hc]

/-- Witness for C4: the spec's scenario, source `{"n": [""]}` against a
string field tagged "n" with the empty default. -/
theorem readForm_empty_first_value_skips_witness :
    (ReadForm [Field.mk "n" FieldKind.str] [FieldValue.vStr ""]
        [("n", [""])]).2 = none :=
  ((readForm_empty_first_value_skips
      [Field.mk "n" FieldKind.str] [FieldValue.vStr ""] [("n", [""])]
      0 (Field.mk "n" FieldKind.str) (FieldValue.vStr "")
      rfl rfl rfl (by decide) (by decide)
      (by
        intro j g d hg hd
        cases j with
        | zero =>
          have hg' : g = Field.mk "n" FieldKind.str := by simpa using hg.symm
          have hd' : d = FieldValue.vStr "" := by simpa using hd.symm
          subst hg'
          subst hd'
          exact ⟨FieldValue.vStr "", rfl⟩
        | succ m => simp at hg)).1).1


/-! ## C6: EmptyBody exactly on nil body; error propagated unchanged -/

/-- C6: `GetBody` returns the `EmptyBody` error exactly when the request
has no body stream; with a stream that reads cleanly it returns all of
its bytes; and ReadJSON/ReadXML hand any `GetBody` error to the caller
unchanged. -/
theorem getBody_emptyBody_contract (β V : Type) (r : Request β)
    (rn : Request Nat) (v : V) (uj ux : UnmarshalerFunc V) :
    ((GetBody r).2 = some HError.emptyBody ↔ r.body = none) ∧
    (∀ s : BodyStream β, r.body = some s → s.readErr = none →
      GetBody r = (s.content, none)) ∧
    (∀ e : HError, (GetBody rn).2 = some e →
      ReadJSON uj rn v = (v, some e) ∧ ReadXML ux rn v = (v, some e)) := by
  obtain ⟨b⟩ := r
  refine ⟨?_, ?_, ?_⟩
  · cases b with
    | none => simp [GetBody]
    | some s =>
      cases hs : s.readErr with
      | none => simp [GetBody, hs]
      | some msg => simp [GetBody, hs]
  · intro s hs hre
    cases b with
    | none => simp at hs
    | some s2 =>
      have hss : s2 = s := by simpa using hs
      subst hss
      simp [GetBody, hre]
  · intro e he
    obtain ⟨bn⟩ := rn
    cases bn with
    | none =>
      have he2 : HError.emptyBody = e := by
        simpa [GetBody] using he
      subst he2
      exact ⟨rfl, rfl⟩
    | some s =>
      cases hs : s.readErr with
      | none => simp [GetBody, hs] at he
      | some msg =>
        have he2 : HError.ioError msg = e := by
          simpa [GetBody, hs] using he
        subst he2
        constructor <;>
          simp [ReadJSON, ReadXML, UnmarshalBody, GetBody, hs]

/-- Witness for C6: a nil-body request makes ReadJSON return the
`EmptyBody` error. -/
theorem getBody_emptyBody_contract_witness :
    ReadJSON (fun _ n => (n, none))
        (Request.mk (none : Option (BodyStream Nat))) (0 : Nat)
      = (0, some HError.emptyBody) :=
  ((getBody_emptyBody_contract Nat Nat (Request.mk none) (Request.mk none)
      0 (fun _ n => (n, none)) (fun _ n => (n, none))).2.2
    HError.emptyBody rfl).1

/-! ## C7: JSON output sets the content type and escapes the payload -/

/-- C7: writing a JSON payload sets the Content-Type header to exactly
"application/json;charset=utf-8", appends exactly the HTML-escaped
payload to the response body (so only escaped bytes reach the writer:
no raw `<`, `>` or `&` byte occurs in it), and `WriteJSON` transmits
marshalled bytes through the same path. -/
theorem writeDataJSON_contract (w : ResponseWriter Nat) (data : List Nat)
    (V : Type) (marshal : MarshalerFunc V) (v : V) (mdata : List Nat)
    (hm : marshal v = Except.ok mdata) :
    getHeader (WriteDataJSON w data) headerTypeContentType
        = some "application/json;charset=utf-8" ∧
    (WriteDataJSON w data).body = w.body ++ jsonHTMLEscape data ∧
    (∀ b ∈ jsonHTMLEscape data, b ≠ 60 ∧ b ≠ 62 ∧ b ≠ 38) ∧
    WriteJSON marshal w v = (WriteDataJSON w mdata, none) := by
  refine ⟨?_, rfl, ?_, ?_⟩
  · simp [WriteDataJSON, SetHeader, getHeader, headerTypeContentType,
      headerTypeContentJSON]
  · intro b hb
    exact mem_jsonHTMLEscape_safe data.length data (Nat.le_refl _) b hb
  · simp [WriteJSON, hm]

/-- Witness for C7 on the payload `[60]` (a raw `<` byte). -/
theorem writeDataJSON_contract_witness :
    getHeader (WriteDataJSON (ResponseWriter.mk [] []) [60])
        headerTypeContentType
      = some "application/json;charset=utf-8" :=
  (writeDataJSON_contract (ResponseWriter.mk [] []) [60] Nat
    (fun _ => Except.ok [60]) 0 [60] rfl).1

/-! ## C8: HTML write/read round trip -/

/-- C8: `WriteHTML` HTML-escapes its input (after setting the HTML
content type) and `ReadHTML` HTML-unescapes the body it reads, so
escape-then-unescape is the identity and reading back what was written
reproduces the original string. -/
theorem writeHTML_readHTML_roundtrip (s : List Char)
    (w : ResponseWriter Char) :
    unescapeString (escapeString s) = s ∧
    getHeader (WriteHTML w s) headerTypeContentType
      = some "text/html;charset=utf-8" ∧
    (WriteHTML w s).body = w.body ++ escapeString s ∧
    ReadHTML (Request.mk (some (BodyStream.mk (escapeString s) none)))
      = (s, none) := by
  refine ⟨unescape_escape s, ?_, rfl, ?_⟩
  · simp [WriteHTML, WriteString, SetHeader, getHeader,
      headerTypeContentType, headerTypeContentHTML]
  · simp [ReadHTML, GetBody, unescape_escape s]

/-! ## C9: upload streams are closed on every exit path -/

/-- C9: once `FormFile` has yielded a source stream, `UploadFile` closes
it on every exit path; the sink, when opened, is closed as well; and a
sink-opening callback that yields no sink makes `UploadFile` return
`CreateFileFailed`. -/
theorem uploadFile_closes_streams (formFile : Except HError String)
    (createFile : String → Bool) (copyErr : Option HError) (name : String)
    (hff : formFile = Except.ok name) :
    (UploadFile formFile createFile copyErr).srcClosed = true ∧
    ((UploadFile formFile createFile copyErr).sinkOpened = true →
      (UploadFile formFile createFile copyErr).sinkClosed = true) ∧
    (createFile name = false →
      (UploadFile formFile createFile copyErr).err
        = some HError.createFileFailed) := by
  subst hff
  by_cases hc : createFile name = true
  · simp [UploadFile, hc]
  · simp [UploadFile, hc]

/-- Witness for C9: a callback yielding no sink surfaces as
`CreateFileFailed`, with the source stream closed. -/
theorem uploadFile_closes_streams_witness :
    (UploadFile (Except.ok "f.txt") (fun _ => false) none).err
        = some HError.createFileFailed ∧
    (UploadFile (Except.ok "f.txt") (fun _ => false) none).srcClosed
        = true :=
  ⟨(uploadFile_closes_streams (Except.ok "f.txt") (fun _ => false) none
      "f.txt" rfl).2.2 rfl,
    (uploadFile_closes_streams (Except.ok "f.txt") (fun _ => false) none
      "f.txt" rfl).1⟩

/-! ## C10: body errors skip the unmarshaler and leave the target alone -/

/-- C10: when reading the body fails, `UnmarshalBody` returns the body
error with the target unchanged and its result is independent of the
unmarshaler (the unmarshaler is never invoked); ReadJSON/ReadXML behave
the same way. -/
theorem unmarshalBody_error_skips_unmarshaler (V : Type) (v : V)
    (r : Request Nat) (u u2 uj ux : UnmarshalerFunc V) (e : HError)
    (h : (GetBody r).2 = some e) :
    UnmarshalBody r v u = (v, some e) ∧
    UnmarshalBody r v u = UnmarshalBody r v u2 ∧
    ReadJSON uj r v = (v, some e) ∧
    ReadXML ux r v = (v, some e) := by
  have key : ∀ w : UnmarshalerFunc V, UnmarshalBody r v w = (v, some e) := by
    intro w
    rcases hg : GetBody r with ⟨data, err⟩
    cases err with
    | none =>
      rw [hg] at h
      simp at h
    | some e2 =>
      have he2 : e2 = e := by
        rw [hg] at h
        simpa using h
      subst he2
      simp [UnmarshalBody, hg]
  exact ⟨key u, (key u).trans (key u2).symm, key uj, key ux⟩

/-- Witness for C10: a nil body with an unmarshaler that would change the
target; the target comes back unchanged with the EmptyBody error. -/
theorem unmarshalBody_error_skips_unmarshaler_witness :
    UnmarshalBody (Request.mk (none : Option (BodyStream Nat))) (0 : Nat)
        (fun _ n => (n + 1, none))
      = (0, some HError.emptyBody) :=
  (unmarshalBody_error_skips_unmarshaler Nat 0 (Request.mk none)
    (fun _ n => (n + 1, none)) (fun _ n => (n, none))
    (fun _ n => (n, none)) (fun _ n => (n, none))
    HError.emptyBody rfl).1

end Https
